import Mathlib

/-!
Verification development for the Project Intake & Report-Generation
Orchestrator of the GAR-LCIA hackathon repository.

The functions below are shallow embeddings of the TypeScript source
(`frontend/src/components/MainPage.tsx`, `frontend/src/lib/api.ts`) and of
the SQL schema (`migrations`). Parts of the backend orchestrator that are
not present in the repository are modelled from the specification text and
marked as such in their doc comments.
-/

namespace GarLcia

/-- A model of the JavaScript values that can appear in an intake record
(`Record<string, any>`): `undefined`, `null`, booleans, (integer) numbers,
strings and arrays. -/
inductive JsVal where
  | vundefined
  | vnull
  | vbool (b : Bool)
  | vnum (n : Int)
  | vstr (s : String)
  | varr (xs : List JsVal)
  deriving Repr

mutual

/-- JavaScript `String(x)` coercion on the modelled values. Arrays are
joined with commas, with `null`/`undefined` elements rendered as the empty
string, as `Array.prototype.toString` does. -/
def jsToString : JsVal → String
  | .vundefined => "undefined"
  | .vnull => "null"
  | .vbool b => if b then "true" else "false"
  | .vnum n => toString n
  | .vstr s => s
  | .varr xs => String.intercalate "," (jsArrParts xs)

/-- The parts of `Array.prototype.toString`: each element stringified,
except `null` and `undefined` which become the empty string. -/
def jsArrParts : List JsVal → List String
  | [] => []
  | .vundefined :: xs => "" :: jsArrParts xs
  | .vnull :: xs => "" :: jsArrParts xs
  | x :: xs => jsToString x :: jsArrParts xs

end

/-- The whitespace characters recognised by the trimming model: space,
tab, newline and carriage return (the characters relevant to the intake
strings; JavaScript `trim` also strips rarer Unicode whitespace). -/
def isJsSpace (c : Char) : Bool :=
  c == ' ' || c == '\t' || c == '\n' || c == '\r'

/-- Drop leading whitespace characters from a character list. -/
def dropLeadingSpaces : List Char → List Char
  | [] => []
  | c :: cs => if isJsSpace c then dropLeadingSpaces cs else c :: cs

/-- Trim whitespace from both ends of a character list. -/
def trimChars (cs : List Char) : List Char :=
  (dropLeadingSpaces (dropLeadingSpaces cs).reverse).reverse

/-- JavaScript `String.prototype.trim` on the modelled strings (a
kernel-computable embedding working on the character list). -/
def jsTrim (s : String) : String :=
  ⟨trimChars s.data⟩

/-- Split a character list at every character satisfying `p`, keeping
empty segments, as JavaScript `split(/[...]/g)` does. -/
def splitChars (p : Char → Bool) : List Char → List (List Char)
  | [] => [[]]
  | c :: cs =>
    if p c then [] :: splitChars p cs
    else
      match splitChars p cs with
      | [] => [[c]]
      | w :: ws => (c :: w) :: ws

/-- JavaScript `String.prototype.split` on a single-character class. -/
def jsSplit (p : Char → Bool) (s : String) : List String :=
  (splitChars p s.data).map (fun cs => ⟨cs⟩)

/-- JavaScript truthiness of the modelled values. -/
def jsTruthy : JsVal → Bool
  | .vundefined => false
  | .vnull => false
  | .vbool b => b
  | .vnum n => n != 0
  | .vstr s => s != ""
  | .varr _ => true

/-- JavaScript `Array.isArray`. -/
def isJsArray : JsVal → Bool
  | .varr _ => true
  | _ => false

/-- The intake record as read by `computeMissingFromIntake`: only the five
required keys are consulted; an absent key reads as `undefined` (the
structure defaults model absent keys; unknown extra keys are never read by
the function and so are not represented). -/
structure Intake where
  current_seat : JsVal := .vundefined
  proposed_seats : JsVal := .vundefined
  arbitration_agreement_text : JsVal := .vundefined
  institution_rules : JsVal := .vundefined
  governing_law : JsVal := .vundefined
  deriving Repr

/-- The check `!String(i.f || "").trim()` applied to a text field in
`computeMissingFromIntake` (MainPage.tsx lines 33, 36-38): the field is
missing when the trimmed string coercion of it (or of `""` when the value
is falsy) is empty. -/
def textFieldMissing (v : JsVal) : Bool :=
  jsTrim (jsToString (if jsTruthy v then v else .vstr "")) == ""

/-- The check `!Array.isArray(ps) || ps.filter((x) => String(x).trim()).length === 0`
on `proposed_seats` (MainPage.tsx line 35). -/
def proposedSeatsMissing (v : JsVal) : Bool :=
  match v with
  | .varr xs => (xs.filter (fun x => jsTrim (jsToString x) != "")).length == 0
  | _ => true

/-- The fixed required-field order used by `computeMissingFromIntake`
(MainPage.tsx lines 33-38) and by §3 of the data model. -/
def requiredFields : List String :=
  ["current_seat", "proposed_seats", "arbitration_agreement_text",
   "institution_rules", "governing_law"]

/-- `computeMissingFromIntake` (MainPage.tsx lines 30-40). The argument is
`Option Intake` to represent the `intake: Record<string, any> | undefined`
parameter; `intake || {}` becomes `Option.getD` with the all-`undefined`
record. The pushes into `missing` are rendered as list concatenation in
the source's order. -/
def computeMissingFromIntake (intake : Option Intake) : List String :=
  let i := intake.getD {}
  (if textFieldMissing i.current_seat then ["current_seat"] else []) ++
  (if proposedSeatsMissing i.proposed_seats then ["proposed_seats"] else []) ++
  (if textFieldMissing i.arbitration_agreement_text then ["arbitration_agreement_text"] else []) ++
  (if textFieldMissing i.institution_rules then ["institution_rules"] else []) ++
  (if textFieldMissing i.governing_law then ["governing_law"] else [])

/-- `parseProposedSeats` (MainPage.tsx lines 42-48): split on comma,
semicolon or newline, trim each piece, keep the truthy (non-empty) ones. -/
def parseProposedSeats (raw : String) : List String :=
  ((jsSplit (fun c => c == ',' || c == ';' || c == '\n') raw).map jsTrim).filter
    (fun s => s != "")

/-- Per-field missing test keyed by field name, matching the tests made by
`computeMissingFromIntake` for each required field. -/
def fieldMissing (i : Intake) : String → Bool
  | "current_seat" => textFieldMissing i.current_seat
  | "proposed_seats" => proposedSeatsMissing i.proposed_seats
  | "arbitration_agreement_text" => textFieldMissing i.arbitration_agreement_text
  | "institution_rules" => textFieldMissing i.institution_rules
  | "governing_law" => textFieldMissing i.governing_law
  | _ => false

/-- The push-in-order structure of `computeMissingFromIntake` is exactly a
filter of the fixed required-field list by the per-field missing test. -/
theorem computeMissing_eq_filter (o : Option Intake) :
    computeMissingFromIntake o = requiredFields.filter (fieldMissing (o.getD {})) := by
  rcases o with _ | i
  · decide
  · cases h1 : textFieldMissing i.current_seat <;>
      cases h2 : proposedSeatsMissing i.proposed_seats <;>
      cases h3 : textFieldMissing i.arbitration_agreement_text <;>
      cases h4 : textFieldMissing i.institution_rules <;>
      cases h5 : textFieldMissing i.governing_law <;>
      simp [computeMissingFromIntake, requiredFields, List.filter, fieldMissing,
        h1, h2, h3, h4, h5]

/-- The statically typed view of an intake, as §3 of the data model
describes it: each required field is an optional string (or optional
sequence of strings for `proposed_seats`). -/
structure IntakeT where
  current_seat : Option String := none
  proposed_seats : Option (List String) := none
  arbitration_agreement_text : Option String := none
  institution_rules : Option String := none
  governing_law : Option String := none
  deriving Repr, DecidableEq

/-- Embed an optional string field into the JavaScript value model: an
absent field is `undefined`, a present one is its string. -/
def optStrToJs : Option String → JsVal
  | none => .vundefined
  | some s => .vstr s

/-- Embed an optional string-sequence field into the JavaScript value
model. -/
def optSeqToJs : Option (List String) → JsVal
  | none => .vundefined
  | some xs => .varr (xs.map .vstr)

/-- Embed a typed intake into the record read by
`computeMissingFromIntake`. -/
def IntakeT.toJs (t : IntakeT) : Intake :=
  { current_seat := optStrToJs t.current_seat,
    proposed_seats := optSeqToJs t.proposed_seats,
    arbitration_agreement_text := optStrToJs t.arbitration_agreement_text,
    institution_rules := optStrToJs t.institution_rules,
    governing_law := optStrToJs t.governing_law }

/-- Spec-side presence rule for a text field (§4.1): present only if
non-empty after trimming whitespace. -/
def textPresent : Option String → Bool
  | none => false
  | some s => jsTrim s != ""

/-- Spec-side presence rule for the `proposed_seats` sequence (§4.1):
present only if at least one element is non-empty after trimming. -/
def seqPresent : Option (List String) → Bool
  | none => false
  | some xs => xs.any (fun s => jsTrim s != "")

theorem textFieldMissing_optStrToJs (o : Option String) :
    textFieldMissing (optStrToJs o) = !(textPresent o) := by
  rcases o with _ | s
  · decide
  · by_cases hs : s = ""
    · subst hs; decide
    · have ht : jsTruthy (.vstr s) = true := by
        simp [jsTruthy, hs]
      simp [textFieldMissing, optStrToJs, textPresent, ht, jsToString, bne]

theorem length_filter_beq_zero {α : Type} (q : α → Bool) (xs : List α) :
    ((xs.filter q).length == 0) = !(xs.any q) := by
  induction xs with
  | nil => rfl
  | cons x xs ih =>
    cases hq : q x <;> simp [List.filter_cons, List.any_cons, hq, ih]

theorem any_map_vstr (xs : List String) :
    ((xs.map JsVal.vstr).any fun x => jsTrim (jsToString x) != "") =
      xs.any (fun s => jsTrim s != "") := by
  induction xs with
  | nil => rfl
  | cons s ss ih => simp [jsToString, ih]

theorem proposedSeatsMissing_optSeqToJs (o : Option (List String)) :
    proposedSeatsMissing (optSeqToJs o) = !(seqPresent o) := by
  rcases o with _ | xs
  · decide
  · simp only [proposedSeatsMissing, optSeqToJs, seqPresent]
    rw [length_filter_beq_zero, any_map_vstr]

theorem dropLeadingSpaces_eq_dropWhile (cs : List Char) :
    dropLeadingSpaces cs = cs.dropWhile isJsSpace := by
  induction cs with
  | nil => rfl
  | cons c cs ih => cases h : isJsSpace c <;> simp [dropLeadingSpaces, List.dropWhile_cons, h, ih]

theorem trimChars_eq_rdropWhile (cs : List Char) :
    trimChars cs = List.rdropWhile isJsSpace (cs.dropWhile isJsSpace) := by
  simp [trimChars, dropLeadingSpaces_eq_dropWhile, List.rdropWhile]

theorem dropWhile_rdropWhile_self {α : Type} (p : α → Bool) (a : List α)
    (h : a.dropWhile p = a) :
    (List.rdropWhile p a).dropWhile p = List.rdropWhile p a := by
  rcases hr : List.rdropWhile p a with _ | ⟨c, b⟩
  · rfl
  · have hpre := List.rdropWhile_prefix p a
    rw [hr] at hpre
    obtain ⟨t, ht⟩ := hpre
    cases hc : p c
    · simp [List.dropWhile_cons, hc]
    · exfalso
      rw [← ht] at h
      simp only [List.cons_append, List.dropWhile_cons, hc, if_true] at h
      have hlen : (List.dropWhile p (b ++ t)).length ≤ (b ++ t).length :=
        List.Sublist.length_le (List.dropWhile_sublist p)
      rw [h] at hlen
      simp only [List.length_cons] at hlen
      omega

theorem trimChars_idem (cs : List Char) : trimChars (trimChars cs) = trimChars cs := by
  rw [trimChars_eq_rdropWhile cs, trimChars_eq_rdropWhile,
    dropWhile_rdropWhile_self isJsSpace _ (List.dropWhile_idempotent _ _),
    List.rdropWhile_idempotent]

theorem jsTrim_idem (s : String) : jsTrim (jsTrim s) = jsTrim s :=
  congrArg String.mk (trimChars_idem s.data)

/-- Every element that `parseProposedSeats` returns is already trimmed and
non-empty. -/
theorem parseProposedSeats_mem (raw : String) (x : String)
    (hx : x ∈ parseProposedSeats raw) : jsTrim x = x ∧ x ≠ "" := by
  unfold parseProposedSeats at hx
  obtain ⟨hmem, hne⟩ := List.mem_filter.mp hx
  obtain ⟨y, _, hxy⟩ := List.mem_map.mp hmem
  refine ⟨?_, by simpa using hne⟩
  rw [← hxy]
  exact jsTrim_idem y

example : parseProposedSeats "Paris, Geneva;  ;London" = ["Paris", "Geneva", "London"] := by
  decide

example : computeMissingFromIntake none = requiredFields := by decide

example :
    computeMissingFromIntake (some { current_seat := .vstr "  " }) = requiredFields := by
  decide

example :
    computeMissingFromIntake (some
      { current_seat := .vstr "London",
        proposed_seats := .varr [.vstr " Paris "],
        arbitration_agreement_text := .vstr "clause",
        institution_rules := .vstr "LCIA",
        governing_law := .vstr "English law" }) = [] := by
  decide

/-- Claim C1: for every intake, `computeMissingFromIntake` returns the
empty list iff all five required fields are present, where a text field is
present only if non-empty after trimming and the `proposed_seats` sequence
is present only if it has at least one element that is non-empty after
trimming; an all-whitespace value counts as missing. -/
theorem missing_empty_iff_all_present (t : IntakeT) :
    computeMissingFromIntake (some t.toJs) = [] ↔
      (textPresent t.current_seat = true ∧ seqPresent t.proposed_seats = true ∧
       textPresent t.arbitration_agreement_text = true ∧
       textPresent t.institution_rules = true ∧
       textPresent t.governing_law = true) := by
  cases hcs : textPresent t.current_seat <;>
    cases hps : seqPresent t.proposed_seats <;>
    cases ha : textPresent t.arbitration_agreement_text <;>
    cases hir : textPresent t.institution_rules <;>
    cases hgl : textPresent t.governing_law <;>
    simp [computeMissingFromIntake, IntakeT.toJs, textFieldMissing_optStrToJs,
      proposedSeatsMissing_optSeqToJs, hcs, hps, ha, hir, hgl]

/-- Claim C2: the missing-fields list is always an in-order sublist of the
fixed required-field order, and any two intakes with the same missing set
yield the same ordered list. -/
theorem missing_list_order_fixed (o : Option Intake) :
    List.Sublist (computeMissingFromIntake o) requiredFields ∧
      ∀ o2 : Option Intake,
        (∀ f, f ∈ computeMissingFromIntake o ↔ f ∈ computeMissingFromIntake o2) →
        computeMissingFromIntake o = computeMissingFromIntake o2 := by
  constructor
  · rw [computeMissing_eq_filter]
    exact List.filter_sublist _
  · intro o2 hmem
    rw [computeMissing_eq_filter o, computeMissing_eq_filter o2]
    refine List.filter_congr ?_
    intro f hf
    have h1 := hmem f
    rw [computeMissing_eq_filter o, computeMissing_eq_filter o2,
      List.mem_filter, List.mem_filter] at h1
    cases hp : fieldMissing (o.getD {}) f <;> cases hq : fieldMissing (o2.getD {}) f <;>
      simp [hp, hq, hf] at h1 ⊢

/-- Witness for C2 at concrete inputs: the undefined intake and the empty
record have the same (full) missing set and so the same ordered list. -/
theorem missing_list_order_fixed_witness :
    List.Sublist (computeMissingFromIntake none) requiredFields ∧
      computeMissingFromIntake none = computeMissingFromIntake (some {}) := by
  constructor
  · exact (missing_list_order_fixed none).1
  · exact (missing_list_order_fixed none).2 (some {}) (fun f => Iff.rfl)

/-- Claim C8: `parseProposedSeats` returns exactly the comma-, semicolon-
or newline-separated segments of its input that are non-empty after
trimming, in order and trimmed; every element of the result is non-empty,
so a non-empty result satisfies the `proposed_seats` presence rule of the
missing-fields computation. -/
theorem parseProposedSeats_spec (raw : String) :
    parseProposedSeats raw =
      ((jsSplit (fun c => c == ',' || c == ';' || c == '\n') raw).map jsTrim).filter
        (fun s => s != "") ∧
    (∀ x ∈ parseProposedSeats raw, jsTrim x = x ∧ x ≠ "") ∧
    (parseProposedSeats raw ≠ [] →
      proposedSeatsMissing (.varr ((parseProposedSeats raw).map .vstr)) = false) := by
  refine ⟨rfl, fun x hx => parseProposedSeats_mem raw x hx, ?_⟩
  intro hne
  have hval : proposedSeatsMissing (.varr ((parseProposedSeats raw).map .vstr)) =
      !((parseProposedSeats raw).any (fun s => jsTrim s != "")) := by
    simp only [proposedSeatsMissing]
    rw [length_filter_beq_zero, any_map_vstr]
  rw [hval]
  rcases hl : parseProposedSeats raw with _ | ⟨x, xs⟩
  · exact absurd hl hne
  · have hx : x ∈ parseProposedSeats raw := by
      rw [hl]
      exact List.mem_cons_self x xs
    obtain ⟨htrim, hxne⟩ := parseProposedSeats_mem raw x hx
    have hb : (jsTrim x != "") = true := by
      simp [htrim, hxne]
    simp [List.any_cons, hb]

/-- Witness for C8 at a concrete input. -/
theorem parseProposedSeats_spec_witness :
    parseProposedSeats "Paris, Geneva" ≠ [] ∧
      proposedSeatsMissing (.varr ((parseProposedSeats "Paris, Geneva").map .vstr)) = false := by
  refine ⟨by decide, ?_⟩
  exact (parseProposedSeats_spec "Paris, Geneva").2.2 (by decide)

/-- Claim C9: `computeMissingFromIntake` is total at the interface: an
undefined intake, a record lacking the required keys, or a non-array
`proposed_seats` value still yields a well-defined list, treating each
such field as missing; an undefined or empty intake yields all five field
names. -/
theorem computeMissing_total :
    computeMissingFromIntake none = requiredFields ∧
    computeMissingFromIntake (some {}) = requiredFields ∧
    (∀ i : Intake, isJsArray i.proposed_seats = false →
      "proposed_seats" ∈ computeMissingFromIntake (some i)) ∧
    (∀ i : Intake, i.current_seat = .vundefined →
      "current_seat" ∈ computeMissingFromIntake (some i)) := by
  refine ⟨by decide, by decide, ?_, ?_⟩
  · intro i h
    have hm : proposedSeatsMissing i.proposed_seats = true := by
      rcases hv : i.proposed_seats with _ | _ | b | n | s | xs <;>
        first
        | rfl
        | (rw [hv] at h; simp [isJsArray] at h)
    simp [computeMissingFromIntake, hm]
  · intro i h
    have hm : textFieldMissing i.current_seat = true := by
      rw [h]
      decide
    simp [computeMissingFromIntake, hm]

/-- Witness for C9 at a concrete intake whose `proposed_seats` is a string
rather than an array. -/
theorem computeMissing_total_witness :
    isJsArray (JsVal.vstr "Paris") = false ∧
    "proposed_seats" ∈
      computeMissingFromIntake (some { proposed_seats := .vstr "Paris" }) ∧
    "current_seat" ∈
      computeMissingFromIntake (some { proposed_seats := .vstr "Paris" }) := by
  refine ⟨by decide, ?_, ?_⟩
  · exact computeMissing_total.2.2.1 _ (by decide)
  · exact computeMissing_total.2.2.2 _ rfl

/-- Roles of UI chat messages (`UiMessage.role` in MainPage.tsx line 28). -/
inductive UiRole where
  | user
  | ai
  deriving Repr, DecidableEq

/-- A UI chat message as held in the `messages` state. -/
structure UiMessage where
  role : UiRole
  content : String
  deriving Repr, DecidableEq

/-- The client state read and written by `handleSendMessage`: guest flag,
the project being chatted about (its id), the input box contents, the
current chat error banner, and the message list. -/
structure ChatClientState where
  guest : Bool
  chattingProject : Option String
  inputMessage : String
  chatError : Option String
  messages : List UiMessage
  deriving Repr, DecidableEq

/-- `handleSendMessage` (MainPage.tsx lines 384-397), up to the point
where the request is handed to `api.sendMessage`: returns the updated
client state together with the request `(projectId, message)` it sends,
if any. The guest branch sets a chat error; a missing project or an
empty-after-trim message returns with no state change and no request;
otherwise the input is cleared, the error reset, the optimistic user
message appended, and the request emitted. -/
def handleSendMessage (s : ChatClientState) :
    ChatClientState × Option (String × String) :=
  if s.guest then
    ({ s with chatError := some "Login is required to chat." }, none)
  else
    match s.chattingProject with
    | none => (s, none)
    | some pid =>
      let msg := jsTrim s.inputMessage
      if msg = "" then (s, none)
      else
        ({ s with
            inputMessage := "",
            chatError := none,
            messages := s.messages ++ [{ role := .user, content := msg }] },
          some (pid, msg))

/-- Claim C4 counterexample: at a concrete logged-in state whose message
text is whitespace only, `handleSendMessage` returns without reporting any
error to the caller — the empty turn is silently ignored, refuting that an
error is reported. -/
theorem emptyMessage_no_error_reported :
    ¬ ((handleSendMessage
        { guest := false, chattingProject := some "p1", inputMessage := " ",
          chatError := none, messages := [] }).1.chatError ≠ none) := by
  decide

/-- Claim C4 (amended): for every non-guest client state whose message
text is empty after trimming, `handleSendMessage` is a silent no-op: no
request is sent or persisted and the client state — including the error
banner, so no error is reported — is unchanged. -/
theorem emptyMessage_silent_noop (s : ChatClientState)
    (hg : s.guest = false) (hm : jsTrim s.inputMessage = "") :
    handleSendMessage s = (s, none) := by
  rcases hp : s.chattingProject with _ | pid <;>
    simp [handleSendMessage, hg, hp, hm]

/-- Witness for the amended C4 at a concrete state. -/
theorem emptyMessage_silent_noop_witness :
    handleSendMessage
        { guest := false, chattingProject := some "p1", inputMessage := "  ",
          chatError := none, messages := [] } =
      ({ guest := false, chattingProject := some "p1", inputMessage := "  ",
         chatError := none, messages := [] }, none) :=
  emptyMessage_silent_noop _ rfl (by decide)

/-- Field types appearing in the API client's declared response shapes. -/
inductive TsFieldType where
  | boolean
  | string
  deriving Repr, DecidableEq

/-- The declared response shape of `api.regenerateReport` (api.ts line
145): `Promise<{ ok: boolean }>` — a single boolean field named `ok`. -/
def regenerateReportResponseFields : List (String × TsFieldType) :=
  [("ok", .boolean)]

/-- An HTTP request as issued by the API client helpers. -/
structure ApiRequest where
  method : String
  path : String
  deriving Repr, DecidableEq

/-- The request issued by `api.regenerateReport` (api.ts lines 145-146):
`POST /projects/{projectId}/report/regenerate`. -/
def regenerateReport (projectId : String) : ApiRequest :=
  { method := "POST", path := "/projects/" ++ projectId ++ "/report/regenerate" }

/-- Claim C5 counterexample: the declared return shape of the exposed
regenerate operation has no `accepted` field — its only field is the
boolean `ok` — so it is not a record of shape `{accepted: bool, reason?}`. -/
theorem regenerate_shape_no_accepted_field :
    ¬ ("accepted" ∈ regenerateReportResponseFields.map Prod.fst) := by
  decide

/-- Claim C5 (amended): for every project id, `api.regenerateReport`
issues `POST /projects/{id}/report/regenerate` — the orchestrator's
regenerate path — and its declared return value is a record with the
single boolean field `ok` rather than `{accepted: bool, reason?}`. -/
theorem regenerate_request_and_shape (projectId : String) :
    (regenerateReport projectId).method = "POST" ∧
    (regenerateReport projectId).path =
      "/projects/" ++ projectId ++ "/report/regenerate" ∧
    regenerateReportResponseFields = [("ok", .boolean)] :=
  ⟨rfl, rfl, rfl⟩

/-- Outcome of one `api.getProject` poll inside the loop: a rejected call
(caught and ignored) or a successful response carrying the project's
status. -/
inductive PollOutcome where
  | err
  | ok (status : String)
  deriving Repr

/-- Whether one poll outcome makes `pollProjectUntilNotWorking` return: a
successful poll whose status differs from `working` (MainPage.tsx line
426). -/
def pollStops : PollOutcome → Bool
  | .err => false
  | .ok st => st != "working"

/-- The loop body of `pollProjectUntilNotWorking` (MainPage.tsx lines
419-432), counting polls: `env i` is the outcome of the poll in iteration
`i`; the loop runs at most `fuel` more iterations starting at index `i`
and returns on the first stopping outcome. The result is the number of
polls performed. -/
def pollIters (env : Nat → PollOutcome) : Nat → Nat → Nat
  | 0, _ => 0
  | fuel + 1, i => if pollStops (env i) then 1 else 1 + pollIters env fuel (i + 1)

/-- `pollProjectUntilNotWorking`: the `for (let i = 0; i < 25; i++)` loop,
starting at iteration 0 with 25 iterations available. -/
def pollProjectUntilNotWorking (env : Nat → PollOutcome) : Nat :=
  pollIters env 25 0

theorem pollIters_le (env : Nat → PollOutcome) (fuel i : Nat) :
    pollIters env fuel i ≤ fuel := by
  induction fuel generalizing i with
  | zero => simp [pollIters]
  | succ n ih =>
    simp only [pollIters]
    split
    · omega
    · have := ih (i + 1)
      omega

theorem pollIters_early (env : Nat → PollOutcome) (fuel i k : Nat)
    (hk : k < fuel)
    (hbefore : ∀ j, j < k → pollStops (env (i + j)) = false)
    (hstop : pollStops (env (i + k)) = true) :
    pollIters env fuel i = k + 1 := by
  induction fuel generalizing i k with
  | zero => omega
  | succ n ih =>
    rcases k with _ | k2
    · rw [Nat.add_zero] at hstop
      simp [pollIters, hstop]
    · have h0 : pollStops (env i) = false := by
        have hb := hbefore 0 (Nat.succ_pos k2)
        rwa [Nat.add_zero] at hb
      simp only [pollIters, h0, Bool.false_eq_true, if_false]
      have ih2 := ih (i + 1) k2 (by omega) ?_ ?_
      · omega
      · intro j hj
        have hb := hbefore (j + 1) (by omega)
        have hidx : i + (j + 1) = i + 1 + j := by omega
        rwa [hidx] at hb
      · have hidx : i + (k2 + 1) = i + 1 + k2 := by omega
        rwa [hidx] at hstop

/-- Claim C10: the status poll after a regenerate request always
terminates — it performs at most 25 poll iterations — and it returns as
soon as any successful poll observes a project status other than
`working`. -/
theorem poll_terminates (env : Nat → PollOutcome) :
    pollProjectUntilNotWorking env ≤ 25 ∧
      ∀ k, k < 25 → (∀ j, j < k → pollStops (env j) = false) →
        pollStops (env k) = true → pollProjectUntilNotWorking env = k + 1 := by
  constructor
  · exact pollIters_le env 25 0
  · intro k hk hb hs
    have h := pollIters_early env 25 0 k hk ?_ ?_
    · simpa [pollProjectUntilNotWorking] using h
    · intro j hj
      have := hb j hj
      rwa [Nat.zero_add]
    · rwa [Nat.zero_add]

/-- Witness for C10: an environment whose first poll already reports
`complete` makes the loop stop after exactly one poll. -/
theorem poll_terminates_witness :
    pollProjectUntilNotWorking (fun _ => .ok "complete") = 1 ∧
      pollProjectUntilNotWorking (fun _ => .ok "complete") ≤ 25 := by
  refine ⟨?_, (poll_terminates (fun _ => .ok "complete")).1⟩
  exact (poll_terminates (fun _ => .ok "complete")).2 0 (by omega)
    (fun j hj => absurd hj (Nat.not_lt_zero j)) (by decide)

/-- The SQL check constraint on `public.projects.status`
(migrations/001_init.sql): `status in ('working','complete','intervention')`. -/
def statusAllowed (s : String) : Bool :=
  s == "working" || s == "complete" || s == "intervention"

/-- The intake object built by `handleCreate` (MainPage.tsx lines
214-218): trimmed current seat or null, parsed proposed seats, trimmed
additional details or null. -/
structure CreateIntake where
  current_seat : Option String
  proposed_seats : List String
  additional_details : Option String
  deriving Repr, DecidableEq

/-- The `x.trim() || null` idiom used by `handleCreate`. -/
def trimOrNull (s : String) : Option String :=
  if jsTrim s = "" then none else some (jsTrim s)

/-- The payload `handleCreate` submits to `api.createProject`. -/
structure CreateProjectPayload where
  title : String
  status : String
  intake : CreateIntake
  deriving Repr, DecidableEq

/-- `handleCreate` (MainPage.tsx lines 199-241) up to the API call: in
guest mode, or with an empty-after-trim title, it reports an error and
submits nothing; otherwise it submits a payload with `status: "working"`
and the intake built from the form fields. -/
def handleCreate (guest : Bool)
    (createTitle createCurrentSeat createProposedSeats createAdditionalDetails :
      String) :
    Option CreateProjectPayload :=
  if guest then none
  else
    let title := jsTrim createTitle
    if title = "" then none
    else some
      { title := title,
        status := "working",
        intake :=
          { current_seat := trimOrNull createCurrentSeat,
            proposed_seats := parseProposedSeats createProposedSeats,
            additional_details := trimOrNull createAdditionalDetails } }

/-- A project row as persisted (001_init.sql together with the report
columns added in the follow-up migration: `report_bucket`/`report_path`
are modelled as one optional location reference, with
`report_generated_at` and `report_error`); `attempted` records whether a
generation attempt has been made (§3 ties `report_error` to an attempt). -/
structure Project where
  status : String
  intake : IntakeT
  report_location : Option String
  report_generated_at : Option Nat
  report_error : Option String
  attempted : Bool
  deriving Repr, DecidableEq

/-- The row inserted on project creation: the payload's status (always
`working` from `handleCreate`) and the SQL defaults for the report
columns (all null). -/
def initProject (c : CreateProjectPayload) : Project :=
  { status := c.status,
    intake :=
      { current_seat := c.intake.current_seat,
        proposed_seats := some c.intake.proposed_seats },
    report_location := none,
    report_generated_at := none,
    report_error := none,
    attempted := false }

/-- Modelled from the spec: the status transitions of §4.2 — the backend
code that mutates `projects.status` is not part of the repository under
verification; only its schema, defaults and client are. Side effects
follow §4.2 and the §3 invariants: a completed generation records the
report location and timestamp and clears the error; a failed attempt
records the error; leaving `complete` (explicit regenerate or stale edit)
clears the report fields; leaving `intervention` clears the recorded
error. -/
inductive Step : Project → Project → Prop where
  | coalesce (p : Project) :
      p.status = "working" → Step p p
  | editIntake (p : Project) (t : IntakeT) :
      p.status = "working" → Step p { p with intake := t }
  | genComplete (p : Project) (loc : String) (ts : Nat) :
      p.status = "working" →
      computeMissingFromIntake (some p.intake.toJs) = [] →
      Step p
        { p with
          status := "complete",
          report_location := some loc,
          report_generated_at := some ts,
          report_error := none,
          attempted := true }
  | genFail (p : Project) (e : String) :
      p.status = "working" →
      Step p
        { p with
          status := "intervention",
          report_error := some e,
          attempted := true }
  | resume (p : Project) (t : IntakeT) :
      p.status = "intervention" →
      Step p
        { p with
          status := "working",
          intake := t,
          report_error := none }
  | regenerate (p : Project) :
      p.status = "complete" →
      Step p
        { p with
          status := "working",
          report_location := none,
          report_generated_at := none,
          report_error := none }

/-- Modelled from the spec: the reachable project states — those created
through `handleCreate` and evolved by the §4.2 transitions. -/
inductive Reachable : Project → Prop where
  | created (g : Bool) (t cs ps ad : String) (c : CreateProjectPayload) :
      handleCreate g t cs ps ad = some c → Reachable (initProject c)
  | step (p q : Project) : Reachable p → Step p q → Reachable q

/-- The inductive invariant tying status and report metadata together
(§3): an allowed status; `report_error` only in `intervention` after an
attempt; location and timestamp set together; and no location outside
`complete`. -/
def ProjInv (p : Project) : Prop :=
  statusAllowed p.status = true ∧
  (p.report_error.isSome = true → p.status = "intervention" ∧ p.attempted = true) ∧
  p.report_location.isSome = p.report_generated_at.isSome ∧
  (p.status ≠ "complete" → p.report_location = none ∧ p.report_generated_at = none)

theorem handleCreate_status (g : Bool) (t cs ps ad : String)
    (c : CreateProjectPayload) (h : handleCreate g t cs ps ad = some c) :
    c.status = "working" := by
  by_cases hg : g
  · simp [handleCreate, hg] at h
  · by_cases ht : jsTrim t = ""
    · simp [handleCreate, hg, ht] at h
    · simp only [handleCreate, hg, ht, if_false, if_neg, Bool.false_eq_true,
        Option.some.injEq] at h
      rw [← h]

theorem projInv_init (c : CreateProjectPayload) (g : Bool) (t cs ps ad : String)
    (h : handleCreate g t cs ps ad = some c) : ProjInv (initProject c) := by
  have hs := handleCreate_status g t cs ps ad c h
  unfold ProjInv initProject
  rw [hs]
  exact ⟨rfl, by simp, rfl, fun _ => ⟨rfl, rfl⟩⟩

theorem projInv_step (p q : Project) (hp : ProjInv p) (hs : Step p q) :
    ProjInv q := by
  obtain ⟨h1, h2, h3, h4⟩ := hp
  cases hs with
  | coalesce h => exact ⟨h1, h2, h3, h4⟩
  | editIntake t h => exact ⟨h1, h2, h3, h4⟩
  | genComplete loc ts h hm =>
      exact ⟨rfl, by simp, rfl, fun hc => absurd rfl hc⟩
  | genFail e h =>
      refine ⟨rfl, fun _ => ⟨rfl, rfl⟩, h3, fun _ => h4 ?_⟩
      rw [h]
      decide
  | resume t h =>
      refine ⟨rfl, by simp, h3, fun _ => h4 ?_⟩
      rw [h]
      decide
  | regenerate h =>
      exact ⟨rfl, by simp, rfl, fun _ => ⟨rfl, rfl⟩⟩

theorem reachable_projInv (p : Project) (h : Reachable p) : ProjInv p := by
  induction h with
  | created g t cs ps ad c hc => exact projInv_init c g t cs ps ad hc
  | step p2 q hp hs ih => exact projInv_step p2 q ih hs

/-- Claim C3: every project is created with status `working`, and the
status of every reachable project state is one of exactly `working`,
`complete` and `intervention` — the statuses admitted by the SQL check
constraint; no modelled operation sets any other value. -/
theorem status_invariant :
    (∀ (g : Bool) (t cs ps ad : String) (c : CreateProjectPayload),
      handleCreate g t cs ps ad = some c → (initProject c).status = "working") ∧
    (∀ p : Project, Reachable p → statusAllowed p.status = true) := by
  constructor
  · intro g t cs ps ad c h
    exact handleCreate_status g t cs ps ad c h
  · intro p h
    exact (reachable_projInv p h).1

/-- A sample payload produced by `handleCreate` on a blank form titled
`Case`, used to instantiate the reachability theorems. -/
def samplePayload : CreateProjectPayload :=
  { title := "Case",
    status := "working",
    intake :=
      { current_seat := none, proposed_seats := [], additional_details := none } }

/-- Witness for C3: a concretely created project has status `working` and
an allowed status. -/
theorem status_invariant_witness :
    (initProject samplePayload).status = "working" ∧
      statusAllowed (initProject samplePayload).status = true := by
  constructor
  · exact status_invariant.1 false "Case" "" "" "" samplePayload (by decide)
  · exact status_invariant.2 (initProject samplePayload)
      (Reachable.created false "Case" "" "" "" samplePayload (by decide))

/-- Claim C7: in every reachable project state, `report_error` is set only
when the status is `intervention` and a generation attempt was made, and
the report location and `report_generated_at` are set together and only
when the status is `complete`; every modelled operation preserves this. -/
theorem report_metadata_invariant (p : Project) (h : Reachable p) :
    (p.report_error.isSome = true → p.status = "intervention" ∧ p.attempted = true) ∧
    p.report_location.isSome = p.report_generated_at.isSome ∧
    (p.report_location.isSome = true → p.status = "complete") := by
  obtain ⟨h1, h2, h3, h4⟩ := reachable_projInv p h
  refine ⟨h2, h3, ?_⟩
  intro hl
  by_contra hc
  obtain ⟨hn, _⟩ := h4 hc
  rw [hn] at hl
  simp at hl

/-- Witness for C7 at a concretely created project. -/
theorem report_metadata_invariant_witness :
    ((initProject samplePayload).report_error.isSome = true →
      (initProject samplePayload).status = "intervention" ∧
        (initProject samplePayload).attempted = true) ∧
    (initProject samplePayload).report_location.isSome =
      (initProject samplePayload).report_generated_at.isSome ∧
    ((initProject samplePayload).report_location.isSome = true →
      (initProject samplePayload).status = "complete") :=
  report_metadata_invariant (initProject samplePayload)
    (Reachable.created false "Case" "" "" "" samplePayload (by decide))

/-- Modelled from the spec: the per-project generation orchestrator state
of §4.4/§5 — the backend orchestrator is not part of the repository under
verification. `inflight` is the per-project mutual-exclusion token,
`active` counts currently running generation executions, and `execCount`
counts executions ever started. -/
structure OrchState where
  inflight : Bool
  active : Nat
  execCount : Nat
  deriving Repr, DecidableEq

/-- Modelled from the spec: `regenerate` (§4.4) — while a generation is in
flight a new request is a no-op returning `false` (not an error);
otherwise it takes the token and starts exactly one new generation
execution. -/
def regenerate (o : OrchState) : OrchState × Bool :=
  if o.inflight then (o, false)
  else
    ({ inflight := true, active := o.active + 1, execCount := o.execCount + 1 },
      true)

/-- Modelled from the spec: a generation finishing (success or failure)
releases the per-project token. -/
def finishGeneration (o : OrchState) : OrchState :=
  { o with inflight := false, active := o.active - 1 }

/-- Modelled from the spec: orchestrator states reachable from the idle
initial state by regenerate requests and generation completions. -/
inductive OrchReachable : OrchState → Prop where
  | init : OrchReachable { inflight := false, active := 0, execCount := 0 }
  | regen (o : OrchState) : OrchReachable o → OrchReachable (regenerate o).1
  | finish (o : OrchState) : OrchReachable o → OrchReachable (finishGeneration o)

theorem orchReachable_active (o : OrchState) (h : OrchReachable o) :
    o.active = (if o.inflight then 1 else 0) := by
  induction h with
  | init => rfl
  | regen o2 h2 ih =>
      by_cases hb : o2.inflight
      · simpa [regenerate, hb] using ih
      · simp [regenerate, hb, ih]
  | finish o2 h2 ih =>
      simp only [finishGeneration]
      rw [ih]
      cases o2.inflight <;> simp

/-- Claim C6 (spec-modelled): two regenerate requests in rapid succession
— no generation finishing in between — start exactly one underlying
generation execution; the duplicate is reported as a no-op (`false`
acceptance, the state unchanged), not an error; and in every reachable
orchestrator state at most one generation is active. -/
theorem regenerate_coalesced (o : OrchState) :
    (o.inflight = false →
      ((regenerate (regenerate o).1).1.execCount = o.execCount + 1 ∧
        (regenerate (regenerate o).1).2 = false ∧
        (regenerate (regenerate o).1).1 = (regenerate o).1)) ∧
    (OrchReachable o → o.active ≤ 1) := by
  constructor
  · intro hb
    simp [regenerate, hb]
  · intro h
    rw [orchReachable_active o h]
    cases o.inflight <;> simp

/-- Witness for C6 at the idle initial orchestrator state. -/
theorem regenerate_coalesced_witness :
    (regenerate (regenerate
        { inflight := false, active := 0, execCount := 0 }).1).1.execCount = 1 ∧
    (regenerate (regenerate
        { inflight := false, active := 0, execCount := 0 }).1).2 = false ∧
    ({ inflight := false, active := 0, execCount := 0 } : OrchState).active ≤ 1 := by
  have h := regenerate_coalesced { inflight := false, active := 0, execCount := 0 }
  exact ⟨(h.1 rfl).1, (h.1 rfl).2.1, h.2 OrchReachable.init⟩

end GarLcia
